import Mathlib

/-!
Verification of the Hoeffding-tree command-line driver
(`src/mlpack/methods/hoeffding_trees/hoeffding_tree_main.cpp`) against its
natural-language specification.

The driver `mlpackMain` is embedded shallowly: CLI parameters become a
`Params` record, the sequence of observable actions of one run (fatal
errors, model construction, `BuildModel` / `Train` / `Classify` calls and
their arguments, reported accuracies, produced outputs) becomes a
`RunResult` record.  The Hoeffding-tree core (`HoeffdingTreeModel` and the
tree it owns) is not part of the verified source tree; where the driver
calls into it, the core is modelled from the specification (such
definitions carry a doc comment starting with `Modelled from the spec:`).
-/

namespace HoeffdingTreeMain

/-- Schema tag of a single dimension of a dataset: either categorical with a
known arity, or numeric (spec §3, mirroring mlpack `data::DatasetInfo`). -/
inductive Dim where
  | categorical (arity : Nat)
  | numeric
deriving DecidableEq

/-- Dataset schema: the ordered sequence of dimension tags, mirroring
`data::DatasetInfo`.  A default-constructed `DatasetInfo` (as on line 143 of
the driver) carries no dimensions. -/
abbrev DatasetInfo := List Dim

/-- Default-constructed `DatasetInfo`: no dimensions, no mappings. -/
def defaultDatasetInfo : DatasetInfo := []

/-- Modelled from the spec: a committed split rule of an internal tree node
(spec §3): a categorical branch map (with a designated default branch for
categories unseen at split time, spec §7 `UnseenCategoryAtRouting`) or a
numeric threshold (child 0 for values below the threshold, child 1
otherwise). -/
inductive SplitRule where
  | categorical (numChildren : Nat) (defaultBranch : Nat)
  | numericThreshold (threshold : ℚ)
deriving DecidableEq

/-- Modelled from the spec: the evolving tree (spec §3 `TreeNode`): a tagged
union of a leaf (owning a per-class count vector) and an internal node
(owning a committed split rule and its ordered children). -/
inductive TreeNode where
  | leaf (classCounts : List Nat)
  | internal (dim : Nat) (rule : SplitRule) (children : List TreeNode)

/-- Modelled from the spec: branch selection of a committed split rule
(spec §4.4 `Descend`): categorical rules select the branch of the example's
category index, routing unseen categories to the designated default branch;
numeric rules compare against the threshold. -/
def childIndex (rule : SplitRule) (v : ℚ) : Nat :=
  match rule with
  | .categorical numChildren defaultBranch =>
      let i := (Rat.floor v).toNat
      if i < numChildren then i else defaultBranch
  | .numericThreshold t => if v < t then 0 else 1

mutual

/-- Modelled from the spec: `Descend` (spec §4.4) followed by reading the
reached leaf's class-count vector: while the node is internal, select the
child named by the committed split rule; terminate at a leaf.  A dangling
branch (an index with no child) yields the empty count vector. -/
def descendCounts : TreeNode → List ℚ → List Nat
  | .leaf classCounts, _ => classCounts
  | .internal dim rule children, x =>
      descendCountsAt children (childIndex rule (x.getD dim 0)) x

/-- Helper of `descendCounts`: structural selection of the `i`-th child. -/
def descendCountsAt : List TreeNode → Nat → List ℚ → List Nat
  | [], _, _ => []
  | c :: _, 0, x => descendCounts c x
  | _ :: cs, i + 1, x => descendCountsAt cs i x

end

/-- Modelled from the spec: `Observe` on a leaf's class counts (spec §4.1):
increment the count of the example's label, extending the vector when the
label is beyond its current length. -/
def incrementCount (classCounts : List Nat) (label : Nat) : List Nat :=
  (List.range (max classCounts.length (label + 1))).map
    (fun i => if i = label then classCounts.getD i 0 + 1 else classCounts.getD i 0)

mutual

/-- Modelled from the spec: one training example's effect on the tree
(spec §4.5): `Descend` to a leaf, then `Observe` the label on that leaf's
statistics.  The split decision `MaybeSplit` (spec §4.4) is modelled as
leaving the tree structure unchanged; no claim settled in this development
depends on split commitment, only on which core entry points the driver
invokes and on the pure classification path. -/
def observeAt : TreeNode → List ℚ → Nat → TreeNode
  | .leaf classCounts, _, label => .leaf (incrementCount classCounts label)
  | .internal dim rule children, x, label =>
      .internal dim rule (observeListAt children (childIndex rule (x.getD dim 0)) x label)

/-- Helper of `observeAt`: update the `i`-th child, leaving the rest. -/
def observeListAt : List TreeNode → Nat → List ℚ → Nat → List TreeNode
  | [], _, _, _ => []
  | c :: cs, 0, x, label => observeAt c x label :: cs
  | c :: cs, i + 1, x, label => c :: observeListAt cs i x label

end

/-- Variant tags of `HoeffdingTreeModel`: the four combinations of gain
criterion (Gini impurity / information gain) and numeric split strategy
(binned `domingos` / binary threshold), as in `hoeffding_tree_model.hpp`. -/
inductive ModelVariant where
  | giniHoeffding
  | giniBinary
  | infoHoeffding
  | infoBinary
deriving DecidableEq

/-- Modelled from the spec: the model value (spec §3): variant tag, the
schema established at training time, the configuration carried inside the
model, and the root tree node — `none` while the model is `Uninitialized`
(created empty, before `BuildModel`). -/
structure HoeffdingTreeModel where
  variant : ModelVariant
  schema : DatasetInfo
  confidence : ℚ
  minSamples : Nat
  maxSamples : Nat
  tree : Option TreeNode

/-- Freshly constructed model of a given variant (driver lines 153–160):
`Uninitialized`, carrying the parameter defaults until `BuildModel`. -/
def freshModel (v : ModelVariant) : HoeffdingTreeModel :=
  { variant := v, schema := [], confidence := 95 / 100, minSamples := 100,
    maxSamples := 5000, tree := none }

/-- Default-constructed `HoeffdingTreeModel` (driver line 142). -/
def defaultModel : HoeffdingTreeModel := freshModel .giniHoeffding

/-- Modelled from the spec: one full streaming pass of `Train`
(spec §4.5, streaming mode): process the examples one at a time in input
order, each descending to a leaf and updating its statistics. -/
def streamPass (examples : List (List ℚ)) (labels : List Nat) (t : TreeNode) : TreeNode :=
  (examples.zip labels).foldl (fun tree p => observeAt tree p.1 p.2) t

/-- Modelled from the spec: `HoeffdingTreeModel::Train` (not under the
verified source tree; spec §4.5): one pass over the training set, streaming
(`batch = false`) or batch (`batch = true`).  Both regimes ingest every
example once; they differ only in when split decisions are made, which is
outside the modelled fragment, so both are one `streamPass` here. -/
def modelTrain (m : HoeffdingTreeModel) (examples : List (List ℚ)) (labels : List Nat)
    (_batch : Bool) : HoeffdingTreeModel :=
  { m with tree := m.tree.map (streamPass examples labels) }

/-- Modelled from the spec: validity of a model configuration (spec §6/§7):
the confidence lies in the open interval (0,1) and the minimum sample count
does not exceed the maximum. -/
def validConfig (confidence : ℚ) (minSamples maxSamples : Nat) : Bool :=
  (0 < confidence && confidence < 1) && (minSamples ≤ maxSamples)

/-- Modelled from the spec: `HoeffdingTreeModel::BuildModel` (not under the
verified source tree; spec §4.5/§7): record the schema and configuration,
create the root leaf with one count per class, and perform the first
ingestion pass over the input.  An invalid configuration is raised eagerly
at model construction, before any training occurs; the driver embedding
checks `validConfig` before this function is entered, so `buildModel`
itself is total. -/
def buildModel (m : HoeffdingTreeModel) (examples : List (List ℚ))
    (info : DatasetInfo) (labels : List Nat) (numClasses : Nat) (_batch : Bool)
    (confidence : ℚ) (maxSamples minSamples : Nat) : HoeffdingTreeModel :=
  { m with schema := info, confidence := confidence, minSamples := minSamples,
           maxSamples := maxSamples,
           tree := some (streamPass examples labels (.leaf (List.replicate numClasses 0))) }

/-- First index of a maximal entry of a count vector (ties to the lowest
index), the arg-max used to turn a leaf's class distribution into a
predicted label (spec §4.5). -/
def argmaxIdx (l : List Nat) : Nat :=
  (l.enum.foldl (fun best p => if p.2 > best.2 then p else best) (0, 0)).1

/-- Modelled from the spec: classification of one example (spec §4.5): pure
read path; descend to a leaf and report the arg-max of its normalized class
distribution together with that class's probability. -/
def classifyPoint (t : TreeNode) (x : List ℚ) : Nat × ℚ :=
  let counts := descendCounts t x
  let label := argmaxIdx counts
  let total : ℚ := (counts.sum : Nat)
  (label, if total = 0 then 0 else (counts.getD label 0 : Nat) / total)

/-- Modelled from the spec: `HoeffdingTreeModel::Classify` on a batch of
examples (spec §4.5): a const member function — it returns the model it was
given, unchanged, along with per-example predicted labels and per-example
probabilities of the predicted class (the driver's `arma::rowvec`).  On an
`Uninitialized` model (never reached by the driver, see the classification
precondition claims) every prediction defaults to label 0 with
probability 0. -/
def modelClassify (m : HoeffdingTreeModel) (examples : List (List ℚ)) :
    HoeffdingTreeModel × List Nat × List ℚ :=
  match m.tree with
  | some t =>
      (m, examples.map (fun x => (classifyPoint t x).1),
          examples.map (fun x => (classifyPoint t x).2))
  | none => (m, examples.map (fun _ => 0), examples.map (fun _ => 0))

/-- Conversion of a C++ `int` parameter value to `size_t`, as performed by
the driver's `(size_t) CLI::GetParam<int>(...)` casts: reduction modulo
2^64 (the driver targets a 64-bit `size_t`). -/
def toSizeT (i : Int) : Nat := (i % ((2 : Int) ^ 64)).toNat

/-- Decrement of a `size_t` value, as performed by the driver's `--passes`
(line 200): subtraction modulo 2^64, wrapping around at 0. -/
def sizeTPred (n : Nat) : Nat := (n + (2 ^ 64 - 1)) % 2 ^ 64

/-- CLI parameters of one driver run, mirroring the `PARAM_*` declarations
of `hoeffding_tree_main.cpp`.  A `has*` flag is `CLI::HasParam` of the
corresponding parameter; value fields carry the parameter's value (its
declared default when not passed).  Matrices are column lists of
examples. -/
structure Params where
  hasTraining : Bool
  trainingInfo : DatasetInfo
  trainingSet : List (List ℚ)
  hasLabels : Bool
  labels : List Nat
  hasInputModel : Bool
  inputModel : HoeffdingTreeModel
  hasTest : Bool
  testSet : List (List ℚ)
  hasTestLabels : Bool
  testLabels : List Nat
  hasPredictions : Bool
  hasProbabilities : Bool
  hasOutputModel : Bool
  confidence : ℚ
  maxSamples : Int
  minSamples : Int
  bins : Int
  observationsBeforeBinning : Int
  passes : Int
  batchMode : Bool
  infoGain : Bool
  numericSplitStrategy : String

/-- Default value of the `numeric_split_strategy` string parameter
(`PARAM_STRING_IN`, line 94–95 of the driver). -/
def defaultNumericSplitStrategy : String := "binary"

/-- Default value of the `info_gain` flag: a `PARAM_FLAG` is false unless
passed (lines 99–100 of the driver). -/
def defaultInfoGain : Bool := false

/-- Fatal errors a run can end with: the three fatal parameter checks of
the driver (lines 118, 127, 138–139) and the spec-modelled eager
configuration check at model construction (spec §7
`InvalidConfiguration`). -/
inductive FatalErr where
  | noTrainingOrInputModel
  | missingLabels
  | unrecognizedStrategy
  | invalidConfiguration
deriving DecidableEq

/-- The driver's `RequireParamInSet` check on `numeric_split_strategy`
(lines 138–139): the strategy must be `domingos` or `binary`. -/
def strategyValid (s : String) : Bool := s == "domingos" || s == "binary"

/-- Fresh-model variant selection (driver lines 153–160): the pair of the
`info_gain` flag and the numeric split strategy determines the variant;
`none` when the strategy matches no branch (unreachable after the
`strategyValid` check). -/
def initModelVariant (infoGain : Bool) (strategy : String) : Option ModelVariant :=
  if !infoGain && strategy == "domingos" then some .giniHoeffding
  else if !infoGain && strategy == "binary" then some .giniBinary
  else if infoGain && strategy == "domingos" then some .infoHoeffding
  else if infoGain && strategy == "binary" then some .infoBinary
  else none

/-- The driver's training-set accuracy loop (lines 227–230, and the same
shape on the test set, lines 260–265): fold over the indices of the
supplied labels, counting positions where the prediction matches. -/
def countCorrect (supplied preds : List Nat) : Nat :=
  (List.range supplied.length).foldl
    (fun c i => if preds.getD i 0 = supplied.getD i 0 then c + 1 else c) 0

/-- Observable outcome of one driver run: the fatal error (if any), which
model-construction and core calls happened and with which arguments, the
accuracy figures computed, and the produced outputs.  `buildCalled` is the
batch flag of a completed `BuildModel` call; `buildPassDone` records that
`BuildModel` consumed its ingestion pass; `trainStreamCalls` /
`trainBatchCalls` count `Train` calls by their batch flag;
`trainClassifyModel` / `testClassifyModel` are the models the two
`Classify` call sites received; `appliedTestInfo` is the dataset info
assigned to the raw `test` parameter before loading (line 245). -/
structure RunResult where
  fatal : Option FatalErr := none
  freshVariant : Option ModelVariant := none
  loadedModel : Bool := false
  buildCalled : Option Bool := none
  buildPassDone : Bool := false
  trainStreamCalls : Nat := 0
  trainBatchCalls : Nat := 0
  trainClassifyModel : Option HoeffdingTreeModel := none
  trainPreds : Option (List Nat) := none
  trainCorrect : Option Nat := none
  trainAccuracy : Option ℚ := none
  appliedTestInfo : Option DatasetInfo := none
  testClassifyModel : Option HoeffdingTreeModel := none
  testPreds : Option (List Nat) := none
  testProbs : Option (List ℚ) := none
  testCorrect : Option Nat := none
  testAccuracy : Option ℚ := none
  predictionsOut : Option (List Nat) := none
  probabilitiesOut : Option (List ℚ) := none
  outputModel : Option HoeffdingTreeModel := none
  finalModel : HoeffdingTreeModel := defaultModel

/-- Result of a run aborted by a fatal parameter check: nothing was
constructed, trained or classified. -/
def fatalResult (e : FatalErr) : RunResult := { fatal := some e }

/-- Outcome of the driver's training block (lines 164–218). -/
structure TrainOutcome where
  fatal : Option FatalErr
  model : HoeffdingTreeModel
  buildCalled : Option Bool
  buildPassDone : Bool
  trainStreamCalls : Nat
  trainBatchCalls : Nat

/-- Effective batch flag of the training block (driver lines 170–176):
`batch_mode` as passed, except that requesting more than one pass forces
streaming mode. -/
def effectiveBatch (p : Params) : Bool :=
  if 1 < toSizeT p.passes then false else p.batchMode

/-- The driver's streaming loop (lines 213–214): `n` further streaming
`Train` calls, each pass seeing the model evolved by the previous pass. -/
def trainLoop (examples : List (List ℚ)) (labels : List Nat) :
    Nat → HoeffdingTreeModel → HoeffdingTreeModel
  | 0, m => m
  | n + 1, m => trainLoop examples labels n (modelTrain m examples labels false)

/-- The driver's training block (lines 164–218), entered only when
`training` was passed: load the configuration, force streaming when more
than one pass is requested (lines 175–176), call `BuildModel` for a fresh
model (consuming one pass, lines 193–201), then perform the remaining
passes — a single batch `Train` only for a loaded model in batch mode
(lines 204–210), else one streaming `Train` per remaining pass
(lines 211–215).  The spec-modelled eager configuration check of model
construction aborts the run before `BuildModel` ingests anything. -/
def trainPhase (p : Params) (model0 : HoeffdingTreeModel) : TrainOutcome :=
  let confidence := p.confidence
  let maxSamples := toSizeT p.maxSamples
  let minSamples := toSizeT p.minSamples
  let passes0 := toSizeT p.passes
  let batchTraining := effectiveBatch p
  let numClasses := (p.labels.foldr max 0) + 1
  if !p.hasInputModel then
    if validConfig confidence minSamples maxSamples then
      let model1 := buildModel model0 p.trainingSet p.trainingInfo p.labels
          numClasses batchTraining confidence maxSamples minSamples
      let passes1 := sizeTPred passes0
      if batchTraining then
        ⟨none, model1, some batchTraining, true, 0, 0⟩
      else
        ⟨none, trainLoop p.trainingSet p.labels passes1 model1,
         some batchTraining, true, passes1, 0⟩
    else
      ⟨some .invalidConfiguration, model0, none, false, 0, 0⟩
  else
    if batchTraining then
      ⟨none, modelTrain model0 p.trainingSet p.labels true, none, false, 0, 1⟩
    else
      ⟨none, trainLoop p.trainingSet p.labels passes0 model0,
       none, false, passes0, 0⟩

/-- The driver's training-set evaluation block (lines 221–235), entered
only when `training` was passed: classify the training set and count
matching labels with the index loop; the logged accuracy is the ratio
`double(correct) / double(total)` (the driver scales it by 100 for
display). -/
def trainingEval (p : Params) (model : HoeffdingTreeModel) (r : RunResult) : RunResult :=
  if p.hasTraining then
    let preds := (modelClassify model p.trainingSet).2.1
    let correct := countCorrect p.labels preds
    { r with trainClassifyModel := some model,
             trainPreds := some preds,
             trainCorrect := some correct,
             trainAccuracy := some ((correct : ℚ) / (p.labels.length : ℚ)) }
  else r

/-- The driver's test block (lines 241–276), entered only when `test` was
passed: pre-set the raw test parameter's dataset info to the local
`datasetInfo` variable (line 245), classify, count matching test labels
when supplied, and move predictions and probabilities to the outputs. -/
def testPhase (p : Params) (model : HoeffdingTreeModel) (datasetInfo : DatasetInfo)
    (r : RunResult) : RunResult :=
  if p.hasTest then
    let preds := (modelClassify model p.testSet).2.1
    let probs := (modelClassify model p.testSet).2.2
    let r1 := { r with appliedTestInfo := some datasetInfo,
                       testClassifyModel := some model,
                       testPreds := some preds,
                       testProbs := some probs }
    let r2 :=
      if p.hasTestLabels then
        let correct := countCorrect p.testLabels preds
        { r1 with testCorrect := some correct,
                  testAccuracy := some ((correct : ℚ) / (p.testLabels.length : ℚ)) }
      else r1
    { r2 with predictionsOut := if p.hasPredictions then some preds else none,
              probabilitiesOut := if p.hasProbabilities then some probs else none }
  else r

/-- Variant of the freshly constructed model of a run, `none` when a model
is loaded from file instead (driver lines 146–161). -/
def freshVariantOf (p : Params) : Option ModelVariant :=
  if p.hasInputModel then none
  else initModelVariant p.infoGain p.numericSplitStrategy

/-- The model in scope after lines 142–161 of the driver: the loaded input
model, or a freshly constructed model of the selected variant (the
default-constructed model when no selection branch matched, which the
strategy check rules out). -/
def initialModel (p : Params) : HoeffdingTreeModel :=
  if p.hasInputModel then p.inputModel
  else (initModelVariant p.infoGain p.numericSplitStrategy).elim defaultModel freshModel

/-- The driver `mlpackMain` (lines 112–281): fatal parameter checks in
program order (lines 118, 126–127, 138–139; the non-fatal warnings of
lines 120–136 have no observable effect and are omitted), model
construction or load (lines 142–161), the training block, the training-set
evaluation, the test block, and the `output_model` move (lines 279–280). -/
def mlpackMain (p : Params) : RunResult :=
  if !(p.hasTraining || p.hasInputModel) then
    fatalResult .noTrainingOrInputModel
  else if p.hasTraining && !p.hasLabels then
    fatalResult .missingLabels
  else if !(strategyValid p.numericSplitStrategy) then
    fatalResult .unrecognizedStrategy
  else
    let freshVariant := freshVariantOf p
    let model0 := initialModel p
    let loaded := p.hasInputModel
    if p.hasTraining then
      let t := trainPhase p model0
      match t.fatal with
      | some e =>
          { fatal := some e, freshVariant := freshVariant, loadedModel := loaded,
            buildCalled := t.buildCalled, buildPassDone := t.buildPassDone,
            trainStreamCalls := t.trainStreamCalls, trainBatchCalls := t.trainBatchCalls }
      | none =>
          let r0 : RunResult :=
            { freshVariant := freshVariant, loadedModel := loaded,
              buildCalled := t.buildCalled, buildPassDone := t.buildPassDone,
              trainStreamCalls := t.trainStreamCalls,
              trainBatchCalls := t.trainBatchCalls }
          let r1 := trainingEval p t.model r0
          let r2 := testPhase p t.model p.trainingInfo r1
          { r2 with outputModel := if p.hasOutputModel then some t.model else none,
                    finalModel := t.model }
    else
      let r0 : RunResult := { freshVariant := freshVariant, loadedModel := loaded }
      let r2 := testPhase p model0 defaultDatasetInfo r0
      { r2 with outputModel := if p.hasOutputModel then some model0 else none,
                finalModel := model0 }

/-- Specification-side count of correct predictions: the number of
positions at which the predicted label equals the supplied true label
(spec §6, accuracy ratio `correct / total`). -/
def matchCount (supplied preds : List Nat) : Nat :=
  (supplied.zip preds).countP fun q => q.1 == q.2

/-- Concrete run used by witnesses: train on four one-dimensional
categorical examples with alternating labels, then classify a test point,
with every numeric parameter at its declared default. -/
def exampleParams : Params :=
  { hasTraining := true, trainingInfo := [Dim.categorical 2],
    trainingSet := [[0], [1], [0], [1]], hasLabels := true,
    labels := [0, 1, 0, 1], hasInputModel := false,
    inputModel := defaultModel, hasTest := true, testSet := [[0]],
    hasTestLabels := true, testLabels := [0], hasPredictions := true,
    hasProbabilities := true, hasOutputModel := false, confidence := 95 / 100,
    maxSamples := 5000, minSamples := 100, bins := 10,
    observationsBeforeBinning := 100, passes := 1, batchMode := false,
    infoGain := false, numericSplitStrategy := "binary" }

/-- Concrete already-built model used by witnesses for loaded-model runs:
trained on one categorical dimension of arity two, its root a leaf with
class counts `[3, 1]`. -/
def loadedExampleModel : HoeffdingTreeModel :=
  { defaultModel with schema := [Dim.categorical 2],
                      tree := some (TreeNode.leaf [3, 1]) }

/-- Concrete run with a loaded model and no training data: the input model
was trained on a one-dimensional categorical schema, yet the driver presets
the test matrix's dataset info from its local default-constructed
`datasetInfo` variable. -/
def loadedOnlyParams : Params :=
  { exampleParams with hasTraining := false, hasLabels := false,
                       hasInputModel := true, inputModel := loadedExampleModel }

/-- Concrete run supplying neither training data nor an input model: the
very first fatal parameter check rejects it. -/
def noModelParams : Params :=
  { exampleParams with hasTraining := false, hasLabels := false,
                       inputModel := loadedExampleModel }

/-! ## Helper lemmas -/

theorem two_pow_64_eq : (2 : Nat) ^ 64 = 18446744073709551616 := by norm_num

theorem toSizeT_lt (i : Int) : toSizeT i < 2 ^ 64 := by
  unfold toSizeT
  rw [two_pow_64_eq]
  have h2 : ((2 : Int) ^ 64) = 18446744073709551616 := by norm_num
  rw [h2]
  omega

theorem sizeTPred_of_pos {n : Nat} (h1 : 1 ≤ n) (h2 : n < 2 ^ 64) :
    sizeTPred n = n - 1 := by
  unfold sizeTPred
  rw [two_pow_64_eq] at h2 ⊢
  omega

theorem sizeTPred_zero : sizeTPred 0 = 2 ^ 64 - 1 := by
  unfold sizeTPred
  rw [two_pow_64_eq]

theorem effectiveBatch_of_multipass {p : Params} (hp : 1 < toSizeT p.passes) :
    effectiveBatch p = false := by
  simp [effectiveBatch, hp]

theorem foldl_count (q : Nat → Prop) [DecidablePred q] (l : List Nat) (acc : Nat) :
    (l.foldl (fun c i => if q i then c + 1 else c) acc)
      = acc + l.countP (fun i => decide (q i)) := by
  induction l generalizing acc with
  | nil => simp
  | cons a as ih =>
      rw [List.foldl_cons, ih, List.countP_cons]
      by_cases h : q a
      · simp [h]; omega
      · simp [h]

theorem range_countP_eq_matchCount (supplied : List Nat) :
    ∀ preds : List Nat, preds.length = supplied.length →
      ((List.range supplied.length).countP
          (fun i => decide (preds.getD i 0 = supplied.getD i 0)))
        = matchCount supplied preds := by
  induction supplied with
  | nil => intro preds _; simp [matchCount]
  | cons a as ih =>
      intro preds hlen
      cases preds with
      | nil => simp at hlen
      | cons b bs =>
          have hbs : bs.length = as.length := by simpa using hlen
          rw [List.length_cons, List.range_succ_eq_map, List.countP_cons,
              List.countP_map]
          have hcomp :
              ((fun i => decide ((b :: bs).getD i 0 = (a :: as).getD i 0)) ∘ Nat.succ)
                = fun i => decide (bs.getD i 0 = as.getD i 0) := by
            funext i
            simp [Function.comp]
          rw [hcomp, ih bs hbs]
          simp only [matchCount, List.zip_cons_cons, List.countP_cons,
            List.getD_cons_zero]
          by_cases h : a = b
          · simp [h]
          · simp [h, Ne.symm h]

theorem countCorrect_eq_matchCount (supplied preds : List Nat)
    (h : preds.length = supplied.length) :
    countCorrect supplied preds = matchCount supplied preds := by
  rw [countCorrect, foldl_count, Nat.zero_add,
      range_countP_eq_matchCount supplied preds h]

theorem modelClassify_fst (m : HoeffdingTreeModel) (ts : List (List ℚ)) :
    (modelClassify m ts).1 = m := by
  cases h : m.tree <;> simp [modelClassify, h]

theorem modelClassify_preds_length (m : HoeffdingTreeModel) (ts : List (List ℚ)) :
    (modelClassify m ts).2.1.length = ts.length := by
  cases h : m.tree <;> simp [modelClassify, h]

theorem modelTrain_tree_isSome (m : HoeffdingTreeModel) (e : List (List ℚ))
    (l : List Nat) (b : Bool) :
    ((modelTrain m e l b).tree).isSome = m.tree.isSome := by
  cases h : m.tree <;> simp [modelTrain, h]

theorem trainLoop_tree_isSome (e : List (List ℚ)) (l : List Nat) (n : Nat)
    (m : HoeffdingTreeModel) :
    ((trainLoop e l n m).tree).isSome = m.tree.isSome := by
  induction n generalizing m with
  | zero => rfl
  | succ k ih => rw [trainLoop, ih, modelTrain_tree_isSome]

theorem buildModel_tree_isSome (m : HoeffdingTreeModel) (e : List (List ℚ))
    (info : DatasetInfo) (l : List Nat) (k : Nat) (b : Bool) (c : ℚ)
    (mx mn : Nat) :
    ((buildModel m e info l k b c mx mn).tree).isSome = true := rfl

/-! ### Branch characterizations of the training block -/

theorem trainPhase_fresh_invalid (p : Params) (m0 : HoeffdingTreeModel)
    (hIM : p.hasInputModel = false)
    (hV : validConfig p.confidence (toSizeT p.minSamples) (toSizeT p.maxSamples) = false) :
    trainPhase p m0 = ⟨some .invalidConfiguration, m0, none, false, 0, 0⟩ := by
  unfold trainPhase
  simp [hIM, hV]

theorem trainPhase_fresh_valid_stream (p : Params) (m0 : HoeffdingTreeModel)
    (hIM : p.hasInputModel = false)
    (hV : validConfig p.confidence (toSizeT p.minSamples) (toSizeT p.maxSamples) = true)
    (hEB : effectiveBatch p = false) :
    trainPhase p m0 =
      ⟨none,
       trainLoop p.trainingSet p.labels (sizeTPred (toSizeT p.passes))
         (buildModel m0 p.trainingSet p.trainingInfo p.labels
           ((p.labels.foldr max 0) + 1) false p.confidence
           (toSizeT p.maxSamples) (toSizeT p.minSamples)),
       some false, true, sizeTPred (toSizeT p.passes), 0⟩ := by
  unfold trainPhase
  simp [hIM, hV, hEB]

theorem trainPhase_fresh_valid_batch (p : Params) (m0 : HoeffdingTreeModel)
    (hIM : p.hasInputModel = false)
    (hV : validConfig p.confidence (toSizeT p.minSamples) (toSizeT p.maxSamples) = true)
    (hEB : effectiveBatch p = true) :
    trainPhase p m0 =
      ⟨none,
       buildModel m0 p.trainingSet p.trainingInfo p.labels
         ((p.labels.foldr max 0) + 1) true p.confidence
         (toSizeT p.maxSamples) (toSizeT p.minSamples),
       some true, true, 0, 0⟩ := by
  unfold trainPhase
  simp [hIM, hV, hEB]

theorem trainPhase_loaded_stream (p : Params) (m0 : HoeffdingTreeModel)
    (hIM : p.hasInputModel = true) (hEB : effectiveBatch p = false) :
    trainPhase p m0 =
      ⟨none, trainLoop p.trainingSet p.labels (toSizeT p.passes) m0,
       none, false, toSizeT p.passes, 0⟩ := by
  unfold trainPhase
  simp [hIM, hEB]

theorem trainPhase_loaded_batch (p : Params) (m0 : HoeffdingTreeModel)
    (hIM : p.hasInputModel = true) (hEB : effectiveBatch p = true) :
    trainPhase p m0 =
      ⟨none, modelTrain m0 p.trainingSet p.labels true, none, false, 0, 1⟩ := by
  unfold trainPhase
  simp [hIM, hEB]

/-! ### Branch characterizations of the driver -/

theorem mlpackMain_no_input (p : Params) (hT : p.hasTraining = false)
    (hM : p.hasInputModel = false) :
    mlpackMain p = fatalResult .noTrainingOrInputModel := by
  unfold mlpackMain
  simp [hT, hM]

theorem mlpackMain_no_labels (p : Params) (hT : p.hasTraining = true)
    (hL : p.hasLabels = false) :
    mlpackMain p = fatalResult .missingLabels := by
  unfold mlpackMain
  simp [hT, hL]

theorem mlpackMain_bad_strategy (p : Params)
    (hOr : (p.hasTraining || p.hasInputModel) = true)
    (hL : p.hasTraining = true → p.hasLabels = true)
    (hS : strategyValid p.numericSplitStrategy = false) :
    mlpackMain p = fatalResult .unrecognizedStrategy := by
  unfold mlpackMain
  cases hT : p.hasTraining with
  | false =>
      have hM : p.hasInputModel = true := by
        cases hM : p.hasInputModel
        · rw [hT, hM] at hOr; simp at hOr
        · rfl
      simp [hT, hM, hS]
  | true => simp [hT, hL hT, hS]

theorem mlpackMain_training_fatal (p : Params) (e : FatalErr)
    (hT : p.hasTraining = true) (hL : p.hasLabels = true)
    (hS : strategyValid p.numericSplitStrategy = true)
    (hF : (trainPhase p (initialModel p)).fatal = some e) :
    mlpackMain p =
      { fatal := some e, freshVariant := freshVariantOf p,
        loadedModel := p.hasInputModel,
        buildCalled := (trainPhase p (initialModel p)).buildCalled,
        buildPassDone := (trainPhase p (initialModel p)).buildPassDone,
        trainStreamCalls := (trainPhase p (initialModel p)).trainStreamCalls,
        trainBatchCalls := (trainPhase p (initialModel p)).trainBatchCalls } := by
  unfold mlpackMain
  rcases hFe : trainPhase p (initialModel p) with ⟨f, M, bc, bp, sc, bcalls⟩
  rw [hFe] at hF
  simp only at hF
  subst hF
  simp [hT, hL, hS, hFe]

theorem mlpackMain_training_ok (p : Params)
    (hT : p.hasTraining = true) (hL : p.hasLabels = true)
    (hS : strategyValid p.numericSplitStrategy = true)
    (hF : (trainPhase p (initialModel p)).fatal = none) :
    (mlpackMain p).fatal = none ∧
    (mlpackMain p).freshVariant = freshVariantOf p ∧
    (mlpackMain p).loadedModel = p.hasInputModel ∧
    (mlpackMain p).buildCalled = (trainPhase p (initialModel p)).buildCalled ∧
    (mlpackMain p).buildPassDone = (trainPhase p (initialModel p)).buildPassDone ∧
    (mlpackMain p).trainStreamCalls = (trainPhase p (initialModel p)).trainStreamCalls ∧
    (mlpackMain p).trainBatchCalls = (trainPhase p (initialModel p)).trainBatchCalls ∧
    (mlpackMain p).trainClassifyModel = some (trainPhase p (initialModel p)).model ∧
    (mlpackMain p).trainPreds =
      some ((modelClassify (trainPhase p (initialModel p)).model p.trainingSet).2.1) ∧
    (mlpackMain p).trainCorrect =
      some (countCorrect p.labels
        ((modelClassify (trainPhase p (initialModel p)).model p.trainingSet).2.1)) ∧
    (mlpackMain p).trainAccuracy =
      some (((countCorrect p.labels
          ((modelClassify (trainPhase p (initialModel p)).model p.trainingSet).2.1) : ℚ))
        / (p.labels.length : ℚ)) ∧
    (p.hasTest = true →
      (mlpackMain p).appliedTestInfo = some p.trainingInfo ∧
      (mlpackMain p).testClassifyModel = some (trainPhase p (initialModel p)).model ∧
      (mlpackMain p).testPreds =
        some ((modelClassify (trainPhase p (initialModel p)).model p.testSet).2.1) ∧
      (p.hasTestLabels = true →
        (mlpackMain p).testCorrect =
          some (countCorrect p.testLabels
            ((modelClassify (trainPhase p (initialModel p)).model p.testSet).2.1)) ∧
        (mlpackMain p).testAccuracy =
          some (((countCorrect p.testLabels
              ((modelClassify (trainPhase p (initialModel p)).model p.testSet).2.1) : ℚ))
            / (p.testLabels.length : ℚ)))) ∧
    (p.hasTest = false →
      (mlpackMain p).appliedTestInfo = none ∧
      (mlpackMain p).testClassifyModel = none) := by
  unfold mlpackMain
  rcases hFe : trainPhase p (initialModel p) with ⟨f, M, bc, bp, sc, bcalls⟩
  rw [hFe] at hF
  simp only at hF
  subst hF
  cases hTe : p.hasTest with
  | false =>
      simp [hT, hL, hS, hFe, trainingEval, testPhase, hTe]
  | true =>
      cases hTL : p.hasTestLabels with
      | false => simp [hT, hL, hS, hFe, trainingEval, testPhase, hTe, hTL]
      | true => simp [hT, hL, hS, hFe, trainingEval, testPhase, hTe, hTL]

theorem mlpackMain_noTraining (p : Params) (hT : p.hasTraining = false)
    (hM : p.hasInputModel = true)
    (hS : strategyValid p.numericSplitStrategy = true) :
    (mlpackMain p).fatal = none ∧
    (mlpackMain p).freshVariant = none ∧
    (mlpackMain p).loadedModel = true ∧
    (mlpackMain p).buildCalled = none ∧
    (mlpackMain p).buildPassDone = false ∧
    (mlpackMain p).trainStreamCalls = 0 ∧
    (mlpackMain p).trainBatchCalls = 0 ∧
    (mlpackMain p).trainClassifyModel = none ∧
    (p.hasTest = true →
      (mlpackMain p).appliedTestInfo = some defaultDatasetInfo ∧
      (mlpackMain p).testClassifyModel = some p.inputModel ∧
      (mlpackMain p).testPreds = some ((modelClassify p.inputModel p.testSet).2.1) ∧
      (p.hasTestLabels = true →
        (mlpackMain p).testCorrect =
          some (countCorrect p.testLabels
            ((modelClassify p.inputModel p.testSet).2.1)) ∧
        (mlpackMain p).testAccuracy =
          some (((countCorrect p.testLabels
              ((modelClassify p.inputModel p.testSet).2.1) : ℚ))
            / (p.testLabels.length : ℚ)))) ∧
    (p.hasTest = false →
      (mlpackMain p).appliedTestInfo = none ∧
      (mlpackMain p).testClassifyModel = none) := by
  unfold mlpackMain
  cases hTe : p.hasTest with
  | false =>
      simp [hT, hM, hS, testPhase, initialModel, freshVariantOf, hTe]
  | true =>
      cases hTL : p.hasTestLabels with
      | false => simp [hT, hM, hS, testPhase, initialModel, freshVariantOf, hTe, hTL]
      | true => simp [hT, hM, hS, testPhase, initialModel, freshVariantOf, hTe, hTL]

theorem trainPhase_fatal_none (p : Params) (m0 : HoeffdingTreeModel)
    (hC : p.hasInputModel = true ∨
      validConfig p.confidence (toSizeT p.minSamples) (toSizeT p.maxSamples) = true) :
    (trainPhase p m0).fatal = none := by
  cases hIM : p.hasInputModel with
  | true =>
      cases hEB : effectiveBatch p with
      | false => rw [trainPhase_loaded_stream p m0 hIM hEB]
      | true => rw [trainPhase_loaded_batch p m0 hIM hEB]
  | false =>
      have hV := hC.resolve_left (by simp [hIM])
      cases hEB : effectiveBatch p with
      | false => rw [trainPhase_fresh_valid_stream p m0 hIM hV hEB]
      | true => rw [trainPhase_fresh_valid_batch p m0 hIM hV hEB]

theorem trainPhase_model_tree_isSome (p : Params) (m0 : HoeffdingTreeModel)
    (h0 : p.hasInputModel = true → (m0.tree).isSome = true)
    (hC : p.hasInputModel = true ∨
      validConfig p.confidence (toSizeT p.minSamples) (toSizeT p.maxSamples) = true) :
    (((trainPhase p m0).model).tree).isSome = true := by
  cases hIM : p.hasInputModel with
  | true =>
      cases hEB : effectiveBatch p with
      | false =>
          rw [trainPhase_loaded_stream p m0 hIM hEB]
          simp only [trainLoop_tree_isSome]
          exact h0 hIM
      | true =>
          rw [trainPhase_loaded_batch p m0 hIM hEB]
          simp only [modelTrain_tree_isSome]
          exact h0 hIM
  | false =>
      have hV := hC.resolve_left (by simp [hIM])
      cases hEB : effectiveBatch p with
      | false =>
          rw [trainPhase_fresh_valid_stream p m0 hIM hV hEB]
          simp only [trainLoop_tree_isSome]
          exact buildModel_tree_isSome m0 p.trainingSet p.trainingInfo p.labels
            ((p.labels.foldr max 0) + 1) false p.confidence
            (toSizeT p.maxSamples) (toSizeT p.minSamples)
      | true =>
          rw [trainPhase_fresh_valid_batch p m0 hIM hV hEB]
          exact buildModel_tree_isSome m0 p.trainingSet p.trainingInfo p.labels
            ((p.labels.foldr max 0) + 1) true p.confidence
            (toSizeT p.maxSamples) (toSizeT p.minSamples)

/-! ## Claim theorems -/

/-- Claim C9: classification is deterministic and read-only.  The second
component of `modelClassify` is the model it was given — unchanged — and
invoking `Classify` again on the model returned by the first invocation,
with no intervening training, returns exactly the same predicted labels
and class probabilities. -/
theorem classify_deterministic_readonly (m : HoeffdingTreeModel)
    (ts : List (List ℚ)) :
    (modelClassify m ts).1 = m ∧
    modelClassify ((modelClassify m ts).1) ts = modelClassify m ts := by
  refine ⟨modelClassify_fst m ts, ?_⟩
  rw [modelClassify_fst m ts]

/-- Claim C5: a run supplying a numeric split strategy other than
`domingos` or `binary` fails fatally during parameter validation — no
model variant is selected, no model is loaded, and no `BuildModel`,
`Train` or `Classify` call ever happens. -/
theorem unknown_strategy_fatal_before_model (p : Params)
    (hS : strategyValid p.numericSplitStrategy = false) :
    ((mlpackMain p).fatal).isSome = true ∧
    (mlpackMain p).freshVariant = none ∧
    (mlpackMain p).loadedModel = false ∧
    (mlpackMain p).buildCalled = none ∧
    (mlpackMain p).buildPassDone = false ∧
    (mlpackMain p).trainStreamCalls = 0 ∧
    (mlpackMain p).trainBatchCalls = 0 ∧
    (mlpackMain p).trainClassifyModel = none ∧
    (mlpackMain p).testClassifyModel = none := by
  cases hT : p.hasTraining with
  | true =>
      cases hL : p.hasLabels with
      | false => rw [mlpackMain_no_labels p hT hL]; simp [fatalResult]
      | true =>
          rw [mlpackMain_bad_strategy p (by simp [hT]) (fun _ => hL) hS]
          simp [fatalResult]
  | false =>
      cases hM : p.hasInputModel with
      | false => rw [mlpackMain_no_input p hT hM]; simp [fatalResult]
      | true =>
          rw [mlpackMain_bad_strategy p (by simp [hM])
            (fun h => by simp [hT] at h) hS]
          simp [fatalResult]

/-- Witness for C5 at a concrete input: the strategy `foo` is rejected
and nothing is constructed or trained. -/
theorem unknown_strategy_fatal_before_model_witness :
    ((mlpackMain { exampleParams with numericSplitStrategy := "foo" }).fatal).isSome
      = true ∧
    (mlpackMain { exampleParams with numericSplitStrategy := "foo" }).buildCalled
      = none := by
  have h := unknown_strategy_fatal_before_model
    { exampleParams with numericSplitStrategy := "foo" } (by decide)
  exact ⟨h.1, h.2.2.2.1⟩

/-- Claim C1: whenever training data is supplied and more than one pass is
requested, streaming mode is forced — `BuildModel` is never invoked with
the batch flag set and no batch `Train` call happens, regardless of the
`batch_mode` flag. -/
theorem multipass_forces_streaming (p : Params) (hT : p.hasTraining = true)
    (hp : 1 < toSizeT p.passes) :
    (mlpackMain p).buildCalled ≠ some true ∧
    (mlpackMain p).trainBatchCalls = 0 := by
  have hEB := effectiveBatch_of_multipass hp
  cases hL : p.hasLabels with
  | false => rw [mlpackMain_no_labels p hT hL]; simp [fatalResult]
  | true =>
      cases hS : strategyValid p.numericSplitStrategy with
      | false =>
          rw [mlpackMain_bad_strategy p (by simp [hT]) (fun _ => hL) hS]
          simp [fatalResult]
      | true =>
          cases hIM : p.hasInputModel with
          | false =>
              cases hV : validConfig p.confidence (toSizeT p.minSamples)
                  (toSizeT p.maxSamples) with
              | false =>
                  have hTP := trainPhase_fresh_invalid p (initialModel p) hIM hV
                  rw [mlpackMain_training_fatal p .invalidConfiguration hT hL hS
                    (by rw [hTP])]
                  rw [hTP]
                  simp
              | true =>
                  have hTP := trainPhase_fresh_valid_stream p (initialModel p) hIM hV hEB
                  obtain ⟨-, -, -, hbc, -, -, hbcal, -, -, -, -, -, -⟩ :=
                    mlpackMain_training_ok p hT hL hS (by rw [hTP])
                  rw [hbc, hbcal, hTP]
                  simp
          | true =>
              have hTP := trainPhase_loaded_stream p (initialModel p) hIM hEB
              obtain ⟨-, -, -, hbc, -, -, hbcal, -, -, -, -, -, -⟩ :=
                mlpackMain_training_ok p hT hL hS (by rw [hTP])
              rw [hbc, hbcal, hTP]
              simp

/-- Witness for C1 at a concrete input: three requested passes with the
`batch_mode` flag set still produce no batch training. -/
theorem multipass_forces_streaming_witness :
    (mlpackMain { exampleParams with passes := 3, batchMode := true }).buildCalled
      ≠ some true ∧
    (mlpackMain { exampleParams with passes := 3, batchMode := true }).trainBatchCalls
      = 0 :=
  multipass_forces_streaming { exampleParams with passes := 3, batchMode := true }
    rfl (by decide)

/-- Claim C10: a requested pass count of 0 with training data, no input
model and streaming mode underflows the unsigned pass counter after
`BuildModel` decrements it: the streaming loop bound becomes 2^64 − 1
further `Train` calls rather than zero. -/
theorem zero_passes_underflow (p : Params) (hT : p.hasTraining = true)
    (hL : p.hasLabels = true)
    (hS : strategyValid p.numericSplitStrategy = true)
    (hIM : p.hasInputModel = false) (hB : p.batchMode = false)
    (hV : validConfig p.confidence (toSizeT p.minSamples) (toSizeT p.maxSamples) = true)
    (h0 : toSizeT p.passes = 0) :
    (mlpackMain p).buildCalled = some false ∧
    (mlpackMain p).buildPassDone = true ∧
    (mlpackMain p).trainStreamCalls = 2 ^ 64 - 1 := by
  have hEB : effectiveBatch p = false := by simp [effectiveBatch, h0, hB]
  have hTP := trainPhase_fresh_valid_stream p (initialModel p) hIM hV hEB
  obtain ⟨-, -, -, hbc, hbp, hsc, -, -, -, -, -, -, -⟩ :=
    mlpackMain_training_ok p hT hL hS (by rw [hTP])
  rw [hbc, hbp, hsc, hTP]
  refine ⟨rfl, rfl, ?_⟩
  rw [h0, sizeTPred_zero]

/-- Witness for C10 at a concrete input: `passes = 0` yields a streaming
loop bound of 18446744073709551615. -/
theorem zero_passes_underflow_witness :
    (mlpackMain { exampleParams with passes := 0 }).trainStreamCalls
      = 2 ^ 64 - 1 :=
  (zero_passes_underflow { exampleParams with passes := 0 } rfl rfl (by decide)
    rfl rfl (by simp [validConfig, exampleParams, toSizeT]; norm_num) (by decide)).2.2

/-- Claim C3: with training data, no input model, and a configuration whose
confidence lies outside (0,1) or whose minimum sample count exceeds the
maximum, the run fails fatally at model construction — before `BuildModel`
ingests its pass, before any `Train` call and before any classification. -/
theorem invalid_config_fatal_before_training (p : Params)
    (hT : p.hasTraining = true) (hL : p.hasLabels = true)
    (hS : strategyValid p.numericSplitStrategy = true)
    (hIM : p.hasInputModel = false)
    (hV : validConfig p.confidence (toSizeT p.minSamples) (toSizeT p.maxSamples)
      = false) :
    (mlpackMain p).fatal = some FatalErr.invalidConfiguration ∧
    (mlpackMain p).buildPassDone = false ∧
    (mlpackMain p).trainStreamCalls = 0 ∧
    (mlpackMain p).trainBatchCalls = 0 ∧
    (mlpackMain p).trainClassifyModel = none ∧
    (mlpackMain p).testClassifyModel = none := by
  have hTP := trainPhase_fresh_invalid p (initialModel p) hIM hV
  rw [mlpackMain_training_fatal p .invalidConfiguration hT hL hS (by rw [hTP])]
  rw [hTP]
  simp

/-- Witness for C3 at a concrete input: confidence 2 aborts the run before
any training. -/
theorem invalid_config_fatal_before_training_witness :
    (mlpackMain { exampleParams with confidence := 2 }).fatal
      = some FatalErr.invalidConfiguration ∧
    (mlpackMain { exampleParams with confidence := 2 }).buildPassDone = false :=
  have h := invalid_config_fatal_before_training
    { exampleParams with confidence := 2 } rfl rfl (by decide) rfl
    (by simp [validConfig, exampleParams, toSizeT])
  ⟨h.1, h.2.1⟩

/-- Claim C2: with training data, a valid configuration and a requested
pass count `p ≥ 1`, streaming mode performs exactly `p` full passes —
`BuildModel` consumes one and `Train(streaming)` runs `p − 1` further
times for a fresh model, while a loaded model gets `p` streaming `Train`
calls; batch mode performs exactly one batch pass, by `BuildModel` for a
fresh model or by a single batch `Train` for a loaded one. -/
theorem streaming_and_batch_pass_counts (p : Params) (hT : p.hasTraining = true)
    (hL : p.hasLabels = true)
    (hS : strategyValid p.numericSplitStrategy = true)
    (hp : 1 ≤ toSizeT p.passes)
    (hC : p.hasInputModel = true ∨
      validConfig p.confidence (toSizeT p.minSamples) (toSizeT p.maxSamples) = true) :
    (effectiveBatch p = false →
      (p.hasInputModel = false →
        (mlpackMain p).buildCalled = some false ∧
        (mlpackMain p).buildPassDone = true ∧
        (mlpackMain p).trainStreamCalls = toSizeT p.passes - 1 ∧
        (mlpackMain p).trainBatchCalls = 0) ∧
      (p.hasInputModel = true →
        (mlpackMain p).buildCalled = none ∧
        (mlpackMain p).trainStreamCalls = toSizeT p.passes ∧
        (mlpackMain p).trainBatchCalls = 0)) ∧
    (effectiveBatch p = true →
      (p.hasInputModel = false →
        (mlpackMain p).buildCalled = some true ∧
        (mlpackMain p).buildPassDone = true ∧
        (mlpackMain p).trainStreamCalls = 0 ∧
        (mlpackMain p).trainBatchCalls = 0) ∧
      (p.hasInputModel = true →
        (mlpackMain p).buildCalled = none ∧
        (mlpackMain p).trainStreamCalls = 0 ∧
        (mlpackMain p).trainBatchCalls = 1)) := by
  constructor
  · intro hEB
    constructor
    · intro hIM
      have hV := hC.resolve_left (by simp [hIM])
      have hTP := trainPhase_fresh_valid_stream p (initialModel p) hIM hV hEB
      obtain ⟨-, -, -, hbc, hbp, hsc, hbcal, -, -, -, -, -, -⟩ :=
        mlpackMain_training_ok p hT hL hS (by rw [hTP])
      rw [hbc, hbp, hsc, hbcal, hTP]
      exact ⟨rfl, rfl, sizeTPred_of_pos hp (toSizeT_lt _), rfl⟩
    · intro hIM
      have hTP := trainPhase_loaded_stream p (initialModel p) hIM hEB
      obtain ⟨-, -, -, hbc, -, hsc, hbcal, -, -, -, -, -, -⟩ :=
        mlpackMain_training_ok p hT hL hS (by rw [hTP])
      rw [hbc, hsc, hbcal, hTP]
      exact ⟨rfl, rfl, rfl⟩
  · intro hEB
    constructor
    · intro hIM
      have hV := hC.resolve_left (by simp [hIM])
      have hTP := trainPhase_fresh_valid_batch p (initialModel p) hIM hV hEB
      obtain ⟨-, -, -, hbc, hbp, hsc, hbcal, -, -, -, -, -, -⟩ :=
        mlpackMain_training_ok p hT hL hS (by rw [hTP])
      rw [hbc, hbp, hsc, hbcal, hTP]
      exact ⟨rfl, rfl, rfl, rfl⟩
    · intro hIM
      have hTP := trainPhase_loaded_batch p (initialModel p) hIM hEB
      obtain ⟨-, -, -, hbc, -, hsc, hbcal, -, -, -, -, -, -⟩ :=
        mlpackMain_training_ok p hT hL hS (by rw [hTP])
      rw [hbc, hsc, hbcal, hTP]
      exact ⟨rfl, rfl, rfl⟩

/-- Witness for C2 at a concrete input: three streaming passes over a
fresh model are one `BuildModel` pass plus two streaming `Train` calls. -/
theorem streaming_and_batch_pass_counts_witness :
    effectiveBatch ({ exampleParams with passes := 3 } : Params) = false ∧
    (mlpackMain { exampleParams with passes := 3 }).buildCalled = some false ∧
    (mlpackMain { exampleParams with passes := 3 }).trainStreamCalls
      = toSizeT ({ exampleParams with passes := 3 } : Params).passes - 1 ∧
    (mlpackMain { exampleParams with passes := 3 }).trainBatchCalls = 0 := by
  have hEB : effectiveBatch ({ exampleParams with passes := 3 } : Params) = false := by
    decide
  have h := (streaming_and_batch_pass_counts { exampleParams with passes := 3 }
    rfl rfl (by decide) (by decide)
    (Or.inr (by simp [validConfig, exampleParams, toSizeT]; norm_num))).1 hEB
  have h2 := h.1 rfl
  exact ⟨hEB, h2.1, h2.2.2.1, h2.2.2.2⟩

/-- Claim C8: when no input model is supplied, the fresh model's variant
is determined exactly by the pair of the `info_gain` flag and the numeric
split strategy, with Gini impurity the default criterion and the binary
threshold strategy the default strategy. -/
theorem fresh_variant_selection (p : Params) (hT : p.hasTraining = true)
    (hL : p.hasLabels = true)
    (hS : strategyValid p.numericSplitStrategy = true)
    (hIM : p.hasInputModel = false) :
    (mlpackMain p).freshVariant = initModelVariant p.infoGain p.numericSplitStrategy ∧
    (p.numericSplitStrategy = "domingos" →
      (mlpackMain p).freshVariant = some (if p.infoGain then ModelVariant.infoHoeffding
        else ModelVariant.giniHoeffding)) ∧
    (p.numericSplitStrategy = "binary" →
      (mlpackMain p).freshVariant = some (if p.infoGain then ModelVariant.infoBinary
        else ModelVariant.giniBinary)) ∧
    initModelVariant defaultInfoGain defaultNumericSplitStrategy
      = some ModelVariant.giniBinary := by
  have hfv : (mlpackMain p).freshVariant = freshVariantOf p := by
    cases hV : validConfig p.confidence (toSizeT p.minSamples) (toSizeT p.maxSamples) with
    | false =>
        have hTP := trainPhase_fresh_invalid p (initialModel p) hIM hV
        rw [mlpackMain_training_fatal p .invalidConfiguration hT hL hS (by rw [hTP])]
    | true =>
        exact (mlpackMain_training_ok p hT hL hS
          (trainPhase_fatal_none p (initialModel p) (Or.inr hV))).2.1
  have hsel : (mlpackMain p).freshVariant
      = initModelVariant p.infoGain p.numericSplitStrategy := by
    rw [hfv]; simp [freshVariantOf, hIM]
  refine ⟨hsel, ?_, ?_, by decide⟩
  · intro hstr
    rw [hsel]
    cases hig : p.infoGain <;> simp [initModelVariant, hstr, hig]
  · intro hstr
    rw [hsel]
    cases hig : p.infoGain <;> simp [initModelVariant, hstr, hig]

/-- Witness for C8 at a concrete input: the default flag values select the
Gini-impurity binary-threshold variant. -/
theorem fresh_variant_selection_witness :
    (mlpackMain exampleParams).freshVariant = some ModelVariant.giniBinary := by
  have h := fresh_variant_selection exampleParams rfl rfl (by decide) rfl
  have h2 := h.2.2.1 rfl
  simpa [exampleParams] using h2

/-- Counterexample to claim C4 as stated: in a run that loads an input
model trained on the schema `[categorical 2]` and supplies no training
data, the dataset info applied to the test matrix is the driver's
default-constructed (empty) `datasetInfo`, not the schema the model was
trained on — yet classification of the test set does happen. -/
theorem applied_test_info_counterexample :
    (loadedOnlyParams.inputModel).schema = [Dim.categorical 2] ∧
    ((mlpackMain loadedOnlyParams).testClassifyModel).isSome = true ∧
    (mlpackMain loadedOnlyParams).appliedTestInfo = some defaultDatasetInfo ∧
    ¬((mlpackMain loadedOnlyParams).appliedTestInfo
        = some (loadedOnlyParams.inputModel).schema) := by
  obtain ⟨-, -, -, -, -, -, -, -, h9, -⟩ :=
    mlpackMain_noTraining loadedOnlyParams rfl rfl (by decide)
  have h9t := h9 rfl
  refine ⟨rfl, ?_, h9t.1, ?_⟩
  · rw [h9t.2.1]; rfl
  · rw [h9t.1]
    simp [defaultDatasetInfo, loadedOnlyParams, loadedExampleModel, defaultModel,
      freshModel]

/-- Claim C4 (amended): the dataset info applied to the test matrix is the
driver's local `datasetInfo` variable — the training data's schema when
training data is supplied in the same run, and the default-constructed
(empty) dataset info when the model is loaded from file with no new
training data (in which case it need not match the schema the model was
trained on). -/
theorem applied_test_info_follows_training_presence (p : Params)
    (hOr : (p.hasTraining || p.hasInputModel) = true)
    (hL : p.hasTraining = true → p.hasLabels = true)
    (hS : strategyValid p.numericSplitStrategy = true)
    (hC : p.hasInputModel = true ∨
      validConfig p.confidence (toSizeT p.minSamples) (toSizeT p.maxSamples) = true)
    (hTest : p.hasTest = true) :
    (p.hasTraining = true →
      (mlpackMain p).appliedTestInfo = some p.trainingInfo) ∧
    (p.hasTraining = false →
      (mlpackMain p).appliedTestInfo = some defaultDatasetInfo) := by
  constructor
  · intro hT
    obtain ⟨-, -, -, -, -, -, -, -, -, -, -, h12, -⟩ :=
      mlpackMain_training_ok p hT (hL hT) hS
        (trainPhase_fatal_none p (initialModel p) hC)
    exact (h12 hTest).1
  · intro hT
    have hM : p.hasInputModel = true := by
      cases hM : p.hasInputModel
      · rw [hT, hM] at hOr; simp at hOr
      · rfl
    obtain ⟨-, -, -, -, -, -, -, -, h9, -⟩ := mlpackMain_noTraining p hT hM hS
    exact (h9 hTest).1

/-- Witness for the amended C4 at a concrete input: with training data
supplied, the training schema is applied to the test matrix. -/
theorem applied_test_info_follows_training_presence_witness :
    (mlpackMain exampleParams).appliedTestInfo = some exampleParams.trainingInfo :=
  (applied_test_info_follows_training_presence exampleParams rfl (fun _ => rfl)
    (by decide)
    (Or.inr (by simp [validConfig, exampleParams, toSizeT]; norm_num)) rfl).1 rfl

/-- Claim C6: classification never happens against an `Uninitialized`
model.  A run with neither training data nor an input model fails fatally
with no `Classify` call; and whenever the driver does invoke `Classify`
(on the training set or the test set), the model handed to it has a built
tree — constructed by `BuildModel` from training data or loaded from the
input model. -/
theorem classify_requires_built_or_loaded_model (p : Params)
    (hInit : ((p.inputModel).tree).isSome = true) :
    (p.hasTraining = false → p.hasInputModel = false →
      (mlpackMain p).fatal = some FatalErr.noTrainingOrInputModel ∧
      (mlpackMain p).trainClassifyModel = none ∧
      (mlpackMain p).testClassifyModel = none) ∧
    (∀ m : HoeffdingTreeModel,
      ((mlpackMain p).trainClassifyModel = some m ∨
       (mlpackMain p).testClassifyModel = some m) →
      (m.tree).isSome = true) := by
  constructor
  · intro hT hM
    rw [mlpackMain_no_input p hT hM]
    exact ⟨rfl, rfl, rfl⟩
  · intro m hm
    cases hT : p.hasTraining with
    | false =>
        cases hM : p.hasInputModel with
        | false =>
            rw [mlpackMain_no_input p hT hM] at hm
            simp [fatalResult] at hm
        | true =>
            cases hS : strategyValid p.numericSplitStrategy with
            | false =>
                rw [mlpackMain_bad_strategy p (by simp [hM])
                  (fun h => by simp [hT] at h) hS] at hm
                simp [fatalResult] at hm
            | true =>
                obtain ⟨-, -, -, -, -, -, -, h8, h9, h10⟩ :=
                  mlpackMain_noTraining p hT hM hS
                rcases hm with hm | hm
                · rw [h8] at hm; simp at hm
                · cases hTe : p.hasTest with
                  | false => rw [(h10 hTe).2] at hm; simp at hm
                  | true =>
                      rw [(h9 hTe).2.1] at hm
                      rw [← Option.some.inj hm]
                      exact hInit
    | true =>
        cases hL : p.hasLabels with
        | false =>
            rw [mlpackMain_no_labels p hT hL] at hm
            simp [fatalResult] at hm
        | true =>
            cases hS : strategyValid p.numericSplitStrategy with
            | false =>
                rw [mlpackMain_bad_strategy p (by simp [hT]) (fun _ => hL) hS] at hm
                simp [fatalResult] at hm
            | true =>
                cases hIM : p.hasInputModel with
                | false =>
                    cases hV : validConfig p.confidence (toSizeT p.minSamples)
                        (toSizeT p.maxSamples) with
                    | false =>
                        have hTP := trainPhase_fresh_invalid p (initialModel p) hIM hV
                        rw [mlpackMain_training_fatal p .invalidConfiguration hT hL hS
                          (by rw [hTP])] at hm
                        simp at hm
                    | true =>
                        have hC : p.hasInputModel = true ∨
                            validConfig p.confidence (toSizeT p.minSamples)
                              (toSizeT p.maxSamples) = true := Or.inr hV
                        have htree := trainPhase_model_tree_isSome p (initialModel p)
                          (fun h => absurd h (by simp [hIM])) hC
                        obtain ⟨-, -, -, -, -, -, -, h8, -, -, -, h12, h13⟩ :=
                          mlpackMain_training_ok p hT hL hS
                            (trainPhase_fatal_none p (initialModel p) hC)
                        rcases hm with hm | hm
                        · rw [h8] at hm
                          rw [← Option.some.inj hm]
                          exact htree
                        · cases hTe : p.hasTest with
                          | false => rw [(h13 hTe).2] at hm; simp at hm
                          | true =>
                              rw [(h12 hTe).2.1] at hm
                              rw [← Option.some.inj hm]
                              exact htree
                | true =>
                    have hC : p.hasInputModel = true ∨
                        validConfig p.confidence (toSizeT p.minSamples)
                          (toSizeT p.maxSamples) = true := Or.inl hIM
                    have htree := trainPhase_model_tree_isSome p (initialModel p)
                      (fun _ => by simpa [initialModel, hIM] using hInit) hC
                    obtain ⟨-, -, -, -, -, -, -, h8, -, -, -, h12, h13⟩ :=
                      mlpackMain_training_ok p hT hL hS
                        (trainPhase_fatal_none p (initialModel p) hC)
                    rcases hm with hm | hm
                    · rw [h8] at hm
                      rw [← Option.some.inj hm]
                      exact htree
                    · cases hTe : p.hasTest with
                      | false => rw [(h13 hTe).2] at hm; simp at hm
                      | true =>
                          rw [(h12 hTe).2.1] at hm
                          rw [← Option.some.inj hm]
                          exact htree

/-- Witness for C6 at a concrete input: a run with neither training data
nor an input model fails fatally and never classifies. -/
theorem classify_requires_built_or_loaded_model_witness :
    (mlpackMain noModelParams).fatal = some FatalErr.noTrainingOrInputModel ∧
    (mlpackMain noModelParams).trainClassifyModel = none ∧
    (mlpackMain noModelParams).testClassifyModel = none :=
  (classify_requires_built_or_loaded_model noModelParams rfl).1 rfl rfl

/-- Claim C7: whenever true labels accompany a prediction run, the
reported accuracy is the ratio of the number of positions at which the
predicted label equals the supplied label to the total number of supplied
labels — for the post-training self-evaluation on the training labels, and
for the test-set evaluation on the test labels in every run that reaches
it, whether the model was freshly trained or only loaded from file. -/
theorem reported_accuracy_is_match_ratio (p : Params)
    (hOr : (p.hasTraining || p.hasInputModel) = true)
    (hL : p.hasTraining = true → p.hasLabels = true)
    (hS : strategyValid p.numericSplitStrategy = true)
    (hC : p.hasTraining = true → p.hasInputModel = true ∨
      validConfig p.confidence (toSizeT p.minSamples) (toSizeT p.maxSamples) = true)
    (hlen : p.hasTraining = true → p.trainingSet.length = p.labels.length)
    (hlenT : p.testSet.length = p.testLabels.length) :
    (p.hasTraining = true →
      (mlpackMain p).trainCorrect
          = some (matchCount p.labels (((mlpackMain p).trainPreds).getD [])) ∧
        (mlpackMain p).trainAccuracy
          = some (((matchCount p.labels (((mlpackMain p).trainPreds).getD []) : Nat) : ℚ)
              / (p.labels.length : ℚ))) ∧
    (p.hasTest = true → p.hasTestLabels = true →
      (mlpackMain p).testCorrect
          = some (matchCount p.testLabels (((mlpackMain p).testPreds).getD [])) ∧
        (mlpackMain p).testAccuracy
          = some (((matchCount p.testLabels (((mlpackMain p).testPreds).getD []) : Nat) : ℚ)
              / (p.testLabels.length : ℚ))) := by
  cases hT : p.hasTraining with
  | true =>
      obtain ⟨-, -, -, -, -, -, -, -, h9, h10, h11, h12, -⟩ :=
        mlpackMain_training_ok p hT (hL hT) hS
          (trainPhase_fatal_none p (initialModel p) (hC hT))
      have hplen : ((modelClassify (trainPhase p (initialModel p)).model
          p.trainingSet).2.1).length = p.labels.length := by
        rw [modelClassify_preds_length]; exact hlen hT
      have hcc := countCorrect_eq_matchCount p.labels
        ((modelClassify (trainPhase p (initialModel p)).model p.trainingSet).2.1) hplen
      constructor
      · intro _
        constructor
        · rw [h10, h9]
          simp only [Option.getD_some]
          rw [hcc]
        · rw [h11, h9]
          simp only [Option.getD_some]
          rw [hcc]
      · intro hTe hTL
        obtain ⟨-, -, h12p, h12l⟩ := h12 hTe
        have hptlen : ((modelClassify (trainPhase p (initialModel p)).model
            p.testSet).2.1).length = p.testLabels.length := by
          rw [modelClassify_preds_length]; exact hlenT
        have hcct := countCorrect_eq_matchCount p.testLabels
          ((modelClassify (trainPhase p (initialModel p)).model p.testSet).2.1) hptlen
        have h12lt := h12l hTL
        constructor
        · rw [h12lt.1, h12p]
          simp only [Option.getD_some]
          rw [hcct]
        · rw [h12lt.2, h12p]
          simp only [Option.getD_some]
          rw [hcct]
  | false =>
      have hM : p.hasInputModel = true := by
        cases hM : p.hasInputModel
        · rw [hT, hM] at hOr; simp at hOr
        · rfl
      obtain ⟨-, -, -, -, -, -, -, -, h9, -⟩ := mlpackMain_noTraining p hT hM hS
      constructor
      · intro h
        exact absurd h (by simp [hT])
      · intro hTe hTL
        obtain ⟨-, -, h9p, h9l⟩ := h9 hTe
        have hptlen : ((modelClassify p.inputModel p.testSet).2.1).length
            = p.testLabels.length := by
          rw [modelClassify_preds_length]; exact hlenT
        have hcct := countCorrect_eq_matchCount p.testLabels
          ((modelClassify p.inputModel p.testSet).2.1) hptlen
        have h9lt := h9l hTL
        constructor
        · rw [h9lt.1, h9p]
          simp only [Option.getD_some]
          rw [hcct]
        · rw [h9lt.2, h9p]
          simp only [Option.getD_some]
          rw [hcct]

/-- Witness for C7 at a concrete input: a loaded-model-only run — no
training data at all — still reports the match-ratio accuracy on the test
labels. -/
theorem reported_accuracy_is_match_ratio_witness :
    (mlpackMain loadedOnlyParams).testCorrect
      = some (matchCount loadedOnlyParams.testLabels
          (((mlpackMain loadedOnlyParams).testPreds).getD [])) :=
  ((reported_accuracy_is_match_ratio loadedOnlyParams rfl
    (fun h => absurd h (by decide)) (by decide)
    (fun h => absurd h (by decide)) (fun h => absurd h (by decide))
    rfl).2 rfl rfl).1

end HoeffdingTreeMain
